import Mathlib

/-!
Verification of the ia2 enclave service (Go) against its natural-language
specification.  The Go sources are shallowly embedded: pure computations
become Lean functions over `Nat`-encoded bytes, the effectful parts
(logging, random draws, channel sends, socket reads/writes/closes) become
explicit event traces, and fatal exits become `Except` errors.  External
library calls (x509 parsing, UUID/IP parsing, crypto/rand, cryptopan.New)
are passed in as function parameters, since only their result shapes matter
to the embedded code.
-/

set_option autoImplicit false

/-! ### SHA-256 (crypto/sha256), over byte lists

`sha256.Sum256` from the Go standard library, used by `setCertFingerprint`.
Bytes are `Nat` values below 256; 32-bit words are `Nat` values reduced
modulo `2 ^ 32`.
-/

/-- Reduce a natural number to a 32-bit word. -/
def w32 (x : Nat) : Nat := x % 4294967296

/-- Right rotation of a 32-bit word by `n` bits. -/
def rotr32 (n x : Nat) : Nat := w32 ((x >>> n) ||| (x <<< (32 - n)))

/-- The SHA-256 `Ch` function; complement is xor with the all-ones word. -/
def shaCh (x y z : Nat) : Nat := (x &&& y) ^^^ ((x ^^^ 4294967295) &&& z)

/-- The SHA-256 `Maj` function. -/
def shaMaj (x y z : Nat) : Nat := (x &&& y) ^^^ (x &&& z) ^^^ (y &&& z)

/-- The SHA-256 big sigma-0 function. -/
def bigSigma0 (x : Nat) : Nat := rotr32 2 x ^^^ rotr32 13 x ^^^ rotr32 22 x

/-- The SHA-256 big sigma-1 function. -/
def bigSigma1 (x : Nat) : Nat := rotr32 6 x ^^^ rotr32 11 x ^^^ rotr32 25 x

/-- The SHA-256 small sigma-0 function. -/
def smallSigma0 (x : Nat) : Nat := rotr32 7 x ^^^ rotr32 18 x ^^^ (x >>> 3)

/-- The SHA-256 small sigma-1 function. -/
def smallSigma1 (x : Nat) : Nat := rotr32 17 x ^^^ rotr32 19 x ^^^ (x >>> 10)

/-- The 64 SHA-256 round constants. -/
def shaK : List Nat :=
  [1116352408, 1899447441, 3049323471, 3921009573, 961987163,
   1508970993, 2453635748, 2870763221, 3624381080, 310598401,
   607225278, 1426881987, 1925078388, 2162078206, 2614888103,
   3248222580, 3835390401, 4022224774, 264347078, 604807628,
   770255983, 1249150122, 1555081692, 1996064986, 2554220882,
   2821834349, 2952996808, 3210313671, 3336571891, 3584528711,
   113926993, 338241895, 666307205, 773529912, 1294757372,
   1396182291, 1695183700, 1986661051, 2177026350, 2456956037,
   2730485921, 2820302411, 3259730800, 3345764771, 3516065817,
   3600352804, 4094571909, 275423344, 430227734, 506948616,
   659060556, 883997877, 958139571, 1322822218, 1537002063,
   1747873779, 1955562222, 2024104815, 2227730452, 2361852424,
   2428436474, 2756734187, 3204031479, 3329325298]

/-- Big-endian 8-byte encoding of a 64-bit length value. -/
def be64 (n : Nat) : List Nat :=
  [(n >>> 56) &&& 255, (n >>> 48) &&& 255, (n >>> 40) &&& 255, (n >>> 32) &&& 255,
   (n >>> 24) &&& 255, (n >>> 16) &&& 255, (n >>> 8) &&& 255, n &&& 255]

/-- SHA-256 padding: append `0x80`, zero bytes, and the 64-bit big-endian
bit length, reaching a multiple of 64 bytes. -/
def padMessage (msg : List Nat) : List Nat :=
  msg ++ 128 :: List.replicate ((119 - msg.length % 64) % 64) 0 ++ be64 (msg.length * 8)

/-- Group a byte list into big-endian 32-bit words. -/
def toWords : List Nat → List Nat
  | b0 :: b1 :: b2 :: b3 :: rest => (((b0 * 256 + b1) * 256 + b2) * 256 + b3) :: toWords rest
  | _ => []

/-- Extend the 16 message words of a block to the 64-word schedule. -/
def extendWords (ws : List Nat) : List Nat :=
  (List.range 48).foldl
    (fun acc _ =>
      let n := acc.length
      acc ++ [w32 (smallSigma1 (acc.getD (n - 2) 0) + acc.getD (n - 7) 0 +
                   smallSigma0 (acc.getD (n - 15) 0) + acc.getD (n - 16) 0)])
    ws

/-- The eight 32-bit state words of SHA-256. -/
structure Hash8 where
  a0 : Nat
  a1 : Nat
  a2 : Nat
  a3 : Nat
  a4 : Nat
  a5 : Nat
  a6 : Nat
  a7 : Nat
deriving Repr, DecidableEq

/-- One SHA-256 compression round, consuming a (schedule word, constant) pair. -/
def roundStep (st : Hash8) (wk : Nat × Nat) : Hash8 :=
  let t1 := w32 (st.a7 + bigSigma1 st.a4 + shaCh st.a4 st.a5 st.a6 + wk.2 + wk.1)
  let t2 := w32 (bigSigma0 st.a0 + shaMaj st.a0 st.a1 st.a2)
  ⟨w32 (t1 + t2), st.a0, st.a1, st.a2, w32 (st.a3 + t1), st.a4, st.a5, st.a6⟩

/-- Compress one 64-byte block into the running hash state. -/
def compressBlock (h : Hash8) (block : List Nat) : Hash8 :=
  let st := ((extendWords (toWords block)).zip shaK).foldl roundStep h
  ⟨w32 (h.a0 + st.a0), w32 (h.a1 + st.a1), w32 (h.a2 + st.a2), w32 (h.a3 + st.a3),
   w32 (h.a4 + st.a4), w32 (h.a5 + st.a5), w32 (h.a6 + st.a6), w32 (h.a7 + st.a7)⟩

/-- The SHA-256 initial hash state. -/
def initH : Hash8 :=
  ⟨1779033703, 3144134277, 1013904242, 2773480762,
   1359893119, 2600822924, 528734635, 1541459225⟩

/-- Split a byte list into consecutive 64-byte chunks; the fuel argument
(instantiated with the list length) only forces structural recursion. -/
def chunks64Go : Nat → List Nat → List (List Nat)
  | 0, _ => []
  | _, [] => []
  | fuel + 1, l => l.take 64 :: chunks64Go fuel (l.drop 64)

/-- Split a byte list into consecutive 64-byte chunks. -/
def chunks64 (l : List Nat) : List (List Nat) := chunks64Go l.length l

/-- Big-endian 4-byte encoding of a 32-bit word. -/
def wordBE4 (n : Nat) : List Nat :=
  [(n >>> 24) &&& 255, (n >>> 16) &&& 255, (n >>> 8) &&& 255, n &&& 255]

/-- SHA-256 digest of a byte list, as a list of 32 bytes
(`sha256.Sum256` in Go). -/
def sha256 (msg : List Nat) : List Nat :=
  let f := (chunks64 (padMessage msg)).foldl compressBlock initH
  wordBE4 f.a0 ++ wordBE4 f.a1 ++ wordBE4 f.a2 ++ wordBE4 f.a3 ++
  wordBE4 f.a4 ++ wordBE4 f.a5 ++ wordBE4 f.a6 ++ wordBE4 f.a7

theorem sha256_length (msg : List Nat) : (sha256 msg).length = 32 := by
  simp [sha256, wordBE4]

/-! ### Lowercase hex encoding (the `%x` format verb on a Go byte slice) -/

/-- One lowercase hexadecimal digit. -/
def hexDigit (n : Nat) : Char :=
  if n < 10 then Char.ofNat (48 + n) else Char.ofNat (87 + n)

/-- Two lowercase hexadecimal digits for one byte. -/
def hexByte (b : Nat) : List Char := [hexDigit (b / 16 % 16), hexDigit (b % 16)]

/-- Lowercase hex string of a byte list, as printed by the `%x` verb. -/
def hexString (bs : List Nat) : String :=
  String.mk (bs.foldr (fun b acc => hexByte b ++ acc) [])

/-! ### Certificate fingerprinting (`setCertFingerprint` in ia2.go)

`setCertFingerprint` repeatedly calls `pem.Decode` on its input and walks
the resulting blocks.  We embed the input as the list of PEM blocks that
`pem.Decode` yields, and `x509.ParseCertificate` as a function parameter
returning the parsed certificate (`nil` error) or `none`.  Per the x509
contract, `cert.Raw` holds the DER bytes the certificate was parsed from.
Reaching the end of the input without a leaf certificate makes `pem.Decode`
return a nil block, which the function answers with `log.Fatal`; an
unparsable CERTIFICATE block is `log.Fatalf`.  Fatal exits are `.error`.
-/

/-- One PEM block as returned by `pem.Decode`: its type string and its
decoded (DER) bytes. -/
structure PemBlock where
  btype : String
  bytes : List Nat
deriving Repr, DecidableEq

/-- The fields of a parsed x509 certificate that `setCertFingerprint`
reads: the CA flag and the raw DER bytes (`cert.Raw`). -/
structure X509Cert where
  isCA : Bool
  raw : List Nat
deriving Repr, DecidableEq

/-- `setCertFingerprint` (ia2.go): scan the PEM blocks; on the first
CERTIFICATE block that parses to a non-CA certificate, return the SHA-256
digest of its raw bytes; an unparsable CERTIFICATE block, or running out
of PEM data, is a fatal exit. -/
def setCertFingerprint (parseCert : List Nat → Option X509Cert) :
    List PemBlock → Except String (List Nat)
  | [] => .error "pem.Decode failed because it didn't find PEM data in the input we provided."
  | b :: rest =>
    if b.btype = "CERTIFICATE" then
      match parseCert b.bytes with
      | none => .error "Failed to parse X509 certificate"
      | some cert =>
        if !cert.isCA then .ok (sha256 cert.raw)
        else setCertFingerprint parseCert rest
    else setCertFingerprint parseCert rest

/-- Written from the specification text, for comparison with
`setCertFingerprint`: the digest of the first PEM CERTIFICATE entry whose
parsed certificate is not a CA, or `none` when no such (leaf) entry
exists. -/
def specLeafDigest (parseCert : List Nat → Option X509Cert) (blocks : List PemBlock) :
    Option (List Nat) :=
  (blocks.find? fun b =>
      b.btype = "CERTIFICATE" &&
        match parseCert b.bytes with
        | some cert => !cert.isCA
        | none => false).map
    fun b =>
      match parseCert b.bytes with
      | some cert => sha256 cert.raw
      | none => []

/-! ### Startup ordering of the fingerprint and the attest handler (ia2.go)

`certSha256` is a global `[32]byte`, zero-valued until assigned.
`initRouter` registers `nitro.GetAttestationHandler(certSha256)`: the Go
array is passed by value, so the handler keeps a copy of whatever
`certSha256` holds at that moment.  `main` calls `initRouter` first and
only afterwards sets up certificates (`useAcme = false`, so via
`genSelfSignedCert`; the ACME path assigns the fingerprint even later,
from a background goroutine).
-/

/-- The zero value of the global `[32]byte` array `certSha256`. -/
def zeroFingerprint : List Nat := List.replicate 32 0

/-- The mutable globals of ia2.go that the attestation path touches,
plus the value captured inside the registered attest handler. -/
structure Ia2Globals where
  certSha256 : List Nat
  attestEmbedded : Option (List Nat)
deriving Repr, DecidableEq

/-- Global state at process start: `certSha256` is zero, no router exists. -/
def initialGlobals : Ia2Globals := ⟨zeroFingerprint, none⟩

/-- `initRouter` (ia2.go): `router.Get("/attest", nitro.GetAttestationHandler(certSha256))`
copies the current array value into the handler. -/
def initRouter (g : Ia2Globals) : Ia2Globals :=
  { g with attestEmbedded := some g.certSha256 }

/-- Running `setCertFingerprint` against the globals: on success it assigns
the global `certSha256`; a fatal exit aborts the process. -/
def applyCertFingerprint (parseCert : List Nat → Option X509Cert)
    (blocks : List PemBlock) (g : Ia2Globals) : Except String Ia2Globals :=
  match setCertFingerprint parseCert blocks with
  | .error e => .error e
  | .ok d => .ok { g with certSha256 := d }

/-- The startup order of `main` (ia2.go) restricted to the two globals:
`initRouter` runs first; certificate material is produced afterwards.
Modelled from the spec: `genSelfSignedCert` (the `useAcme = false` branch,
not part of the provided sources) synthesizes the certificate and the
fingerprint is computed immediately, i.e. `setCertFingerprint` runs
synchronously on the fresh certificate's PEM data. -/
def mainStartup (parseCert : List Nat → Option X509Cert)
    (blocks : List PemBlock) : Except String Ia2Globals :=
  applyCertFingerprint parseCert blocks (initRouter initialGlobals)

/-- The fingerprint value a `GET /attest` response embeds: the copy the
handler captured when the router was built. -/
def attestResponse (g : Ia2Globals) : List Nat :=
  g.attestEmbedded.getD zeroFingerprint

/-! ### Anonymization-key initialization (`initAnonymization` in ia2.go)

`crypto/rand.Read` is embedded as a function from the requested byte count
to `some bytes` (success) or `none` (error); `cryptopan.New` as a success
predicate on the key.  The trace records each requested draw size and each
`log.Println`/`log.Printf` line; `log.Fatal` is the `fatal` outcome.
-/

/-- `hmacKeySize` (ia2.go). -/
def hmacKeySize : Nat := 20

/-- `cryptopan.Size` from github.com/Yawning/cryptopan: AES key size (16)
plus pad block size (16). -/
def cryptopanSize : Nat := 32

/-- Outcome of `initAnonymization`: a fatal exit, or the installed key
material of the selected strategy. -/
inductive AnonOutcome where
  | fatal : AnonOutcome
  | hmacReady : List Nat → AnonOutcome
  | cryptoPanReady : List Nat → AnonOutcome
deriving Repr, DecidableEq

/-- Observable behavior of `initAnonymization`: sizes of the secure-random
draws it performs, the log lines it writes, and its outcome. -/
structure AnonInit where
  draws : List Nat
  logs : List String
  outcome : AnonOutcome
deriving Repr, DecidableEq

/-- `initAnonymization` (ia2.go).  Both branches perform one `rand.Read`
sized to the strategy's key length and then log the key unconditionally
(the source comments that enclave debug output is invisible in production,
"so there's no harm in logging secrets"). -/
def initAnonymization (useCryptoPAn : Bool) (randRead : Nat → Option (List Nat))
    (cryptopanNew : List Nat → Bool) : AnonInit :=
  if !useCryptoPAn then
    match randRead hmacKeySize with
    | none => ⟨[hmacKeySize], ["Using HMAC-SHA256 for IP address anonymization."], .fatal⟩
    | some key =>
      ⟨[hmacKeySize],
       ["Using HMAC-SHA256 for IP address anonymization.", "HMAC key: " ++ hexString key],
       .hmacReady key⟩
  else
    match randRead cryptopanSize with
    | none => ⟨[cryptopanSize], ["Using Crypto-PAn for IP address anonymization."], .fatal⟩
    | some key =>
      ⟨[cryptopanSize],
       ["Using Crypto-PAn for IP address anonymization.", "Crypto-PAn key: " ++ hexString key],
       if cryptopanNew key then .cryptoPanReady key else .fatal⟩

/-- The constant `debug` in ia2.go (the sources fix it to `true`; the
startup log model below takes the build's value as a parameter). -/
def debugConstant : Bool := true

/-- The startup log lines of `main` (ia2.go) through anonymization-key
setup: the debug banner is the only logging the `debug` constant controls;
the key logging inside `initAnonymization` is unconditional. -/
def mainStartupLogs (debugFlag useCryptoPAn : Bool) (randRead : Nat → Option (List Nat))
    (cryptopanNew : List Nat → Bool) : List String :=
  (if debugFlag then ["Enabling debug mode."] else []) ++
  ["Setting up HTTP handlers."] ++
  (initAnonymization useCryptoPAn randRead cryptopanNew).logs ++
  ["Initializing new flusher with interval 300s."]

/-! ### Receiver validation (receiver_web.go)

`strconv.ParseUint(v, 10, 0)` is embedded faithfully (decimal digits only,
no sign, value must fit 64 bits; `bitSize = 0` means the platform `uint`).
`uuid.Parse` and `net.ParseIP` are external library calls and are passed
in as parameters; parsed UUIDs and IPs are byte lists.
-/

/-- The numeric value of a decimal digit character, if it is one. -/
def digitVal (c : Char) : Option Nat :=
  if '0' ≤ c ∧ c ≤ '9' then some (c.toNat - 48) else none

/-- `strconv.ParseUint(s, 10, 0)` from the Go standard library: a
non-empty all-digit string whose value fits in 64 bits; anything else is
an error (`none`). -/
def strconvParseUint10 (s : String) : Option Nat :=
  if s.data = [] then none
  else
    s.data.foldl
      (fun acc c =>
        match acc, digitVal c with
        | some n, some d =>
          if 10 * n + d < 18446744073709551616 then some (10 * n + d) else none
        | _, _ => none)
      (some 0)

/-- `isValidApiVersion` (receiver_web.go): the version string parses as an
unsigned integer between 1 and 4. -/
def isValidApiVersion (v : String) : Bool :=
  match strconvParseUint10 v with
  | none => false
  | some num => decide (1 ≤ num) && decide (num ≤ 4)

/-- `clientRequest` (receiver_web.go): parsed client IP and wallet UUID,
both as byte lists. -/
structure clientRequest where
  Addr : List Nat
  Wallet : List Nat
deriving Repr, DecidableEq

/-- The error strings of receiver_web.go (`%q` renders with quotes). -/
def errBadApiVersion : String := "invalid ads API version"

/-- `errBadWalletFmt` (receiver_web.go). -/
def errBadWalletFmt : String := "wallet ID has bad format"

/-- `errNoFastlyHeader` (receiver_web.go). -/
def errNoFastlyHeader : String := "found no \"Fastly-Client-IP\" header"

/-- `errBadFastlyAddrFormat` (receiver_web.go). -/
def errBadFastlyAddrFormat : String := "bad IP address format in \"Fastly-Client-IP\" header"

/-- Everything one call of the confirmation-token handler produces: the
HTTP status and body, the records sent to the inbox channel, and the
Prometheus `webResponses` label pairs it increments. -/
structure HandlerOutcome where
  status : Nat
  body : String
  sent : List clientRequest
  metrics : List (String × String)
deriving Repr, DecidableEq

/-- `errAndReport` (receiver_web.go): `http.Error` writes the body plus a
newline and sets the status; the metric is labelled with code and body. -/
def errAndReport (body : String) (code : Nat) : HandlerOutcome :=
  ⟨code, body ++ "\n", [], [(toString code, body)]⟩

/-- `getConfTokenHandler` (receiver_web.go).  `r.Header.Get` yields the
empty string when the header is absent, hence the `Option.getD ""`.
When every check passes the handler increments the success metric, sends
one record on the inbox channel, and returns without writing, which
produces an empty 200 response. -/
def getConfTokenHandler (parseUUID : String → Option (List Nat))
    (parseIP : String → Option (List Nat)) (version walletID : String)
    (header : Option String) : HandlerOutcome :=
  if !isValidApiVersion version then errAndReport errBadApiVersion 400
  else
    match parseUUID walletID with
    | none => errAndReport errBadWalletFmt 400
    | some walletUUID =>
      let rawAddr := header.getD ""
      if rawAddr = "" then errAndReport errNoFastlyHeader 400
      else
        match parseIP rawAddr with
        | none => errAndReport errBadFastlyAddrFormat 400
        | some addr => ⟨200, "", [⟨addr, walletUUID⟩], [("200", "")]⟩

/-- The part of a handler outcome the claim talks about: response status,
response body, and the records sent to the inbox. -/
structure SpecResponse where
  status : Nat
  body : String
  sent : List clientRequest
deriving Repr, DecidableEq

/-- Written from the specification text, for comparison with
`getConfTokenHandler`: invalid version, unparsable wallet ID, missing
header, or unparsable header IP give an immediate 400 carrying the
matching one of the four reason strings and enqueue nothing; otherwise
exactly one record with the parsed IP and UUID is enqueued and the
response is an empty 200. -/
def confTokenSpec (parseUUID : String → Option (List Nat))
    (parseIP : String → Option (List Nat)) (version walletID : String)
    (header : Option String) : SpecResponse :=
  if isValidApiVersion version = false then ⟨400, errBadApiVersion ++ "\n", []⟩
  else if (parseUUID walletID).isNone then ⟨400, errBadWalletFmt ++ "\n", []⟩
  else if header.getD "" = "" then ⟨400, errNoFastlyHeader ++ "\n", []⟩
  else if (parseIP (header.getD "")).isNone then ⟨400, errBadFastlyAddrFormat ++ "\n", []⟩
  else ⟨200, "", [⟨(parseIP (header.getD "")).getD [], (parseUUID walletID).getD []⟩]⟩

/-! ### The vsock proxy (vproxy.go: `VProxy.Start` and `VProxy.pipe`)

Connections are named by numbers.  A forwarding task's environment is a
script of steps: what the kernel has available on the source connection
(`none` models a read error) and how `dst.Write` behaves (bytes reported
written, error flag).  The task's observable behavior is a trace of
network effects.  An empty remaining script models a task still blocked
in `src.Read`, so no close is emitted for it.
-/

/-- `make([]byte, 0xffff)` in `VProxy.pipe`: the relay buffer length. -/
def bufSize : Nat := 0xffff

/-- One iteration's environment for `VProxy.pipe`. -/
structure PipeStep where
  offered : Option (List Nat)
  writeN : Nat
  writeErr : Bool

/-- Network effects a forwarding task performs. -/
inductive NetEffect where
  | readOk : Nat → List Nat → NetEffect
  | readErr : Nat → NetEffect
  | write : Nat → List Nat → NetEffect
  | close : Nat → NetEffect
deriving Repr, DecidableEq

/-- `VProxy.pipe` (vproxy.go): read into the 0xffff-byte buffer, write the
read bytes to `dst`, and return — firing the deferred `src.Close()` — on a
read error, a write error, or a short write. -/
def pipe (src dst : Nat) : List PipeStep → List NetEffect
  | [] => []
  | s :: rest =>
    match s.offered with
    | none => [.readErr src, .close src]
    | some bs =>
      let b := bs.take bufSize
      .readOk src b :: .write dst b ::
        (if s.writeErr then [.close src]
         else if s.writeN ≠ b.length then [.close src]
         else pipe src dst rest)

/-- The chunks a trace reads successfully. -/
def readsOf (t : List NetEffect) : List (List Nat) :=
  t.filterMap fun e =>
    match e with
    | .readOk _ b => some b
    | _ => none

/-- The chunks a trace passes to `dst.Write`. -/
def writesOf (t : List NetEffect) : List (List Nat) :=
  t.filterMap fun e =>
    match e with
    | .write _ b => some b
    | _ => none

/-- The connections a trace closes. -/
def closesOf (t : List NetEffect) : List Nat :=
  t.filterMap fun e =>
    match e with
    | .close c => some c
    | _ => none

/-- Whether a script step makes `VProxy.pipe` return: read error, write
error, or short write. -/
def stepFails (s : PipeStep) : Bool :=
  match s.offered with
  | none => true
  | some bs => s.writeErr || decide (s.writeN ≠ (bs.take bufSize).length)

/-- One connection attempt arriving at `VProxy.Start`'s accept loop:
an identifier for the inbound connection, whether `ln.Accept` succeeds,
and whether the `vsock.Dial` for it succeeds. -/
structure ConnAttempt where
  cid : Nat
  acceptOk : Bool
  dialOk : Bool

/-- Events of `VProxy.Start`: listener bound, readiness signalled on the
`done` channel, an `ln.Accept` call, a log line, or a connection pair
bridged (two `pipe` tasks spawned). -/
inductive ProxyEv where
  | bound : ProxyEv
  | doneSignal : ProxyEv
  | acceptCall : ProxyEv
  | logMsg : String → ProxyEv
  | bridged : Nat → ProxyEv
deriving Repr, DecidableEq

/-- The accept loop of `VProxy.Start` (vproxy.go): an accept failure or a
vsock dial failure logs and `continue`s; a successful dial spawns the two
forwarding tasks for that pair. -/
def acceptLoop : List ConnAttempt → List ProxyEv
  | [] => []
  | c :: rest =>
    .logMsg "Waiting for new outgoing TCP connection." :: .acceptCall ::
      (if !c.acceptOk then .logMsg "Failed to accept proxy connection." :: acceptLoop rest
       else
         .logMsg "Accepted new outgoing TCP connection." ::
           (if !c.dialOk then
              .logMsg "Failed to establish connection to SOCKS proxy." :: acceptLoop rest
            else
              .logMsg "Established connection with SOCKS proxy over vsock." ::
                .bridged c.cid :: acceptLoop rest))

/-- `VProxy.Start` (vproxy.go): bind the local TCP listener (a bind
failure is `log.Fatalf`, exiting before any signal), then signal readiness
once on `done`, then enter the accept loop. -/
def vproxyStart (bindOk : Bool) (conns : List ConnAttempt) : List ProxyEv :=
  if bindOk then .bound :: .doneSignal :: acceptLoop conns
  else []

/-- The identifiers of the connection pairs a trace bridges. -/
def bridgedOf (t : List ProxyEv) : List Nat :=
  t.filterMap fun e =>
    match e with
    | .bridged i => some i
    | _ => none

/-- The startup steps of `main` (ia2.go) in program order. -/
inductive MainOp where
  | seedEntropy : MainOp
  | assignLoAddr : MainOp
  | buildRouter : MainOp
  | anonInit : MainOp
  | newVProxy : MainOp
  | spawnProxyStart : MainOp
  | awaitDone : MainOp
  | setEnvOp : String → String → MainOp
  | startFlusher : MainOp
  | certSetup : MainOp
  | serveTLS : MainOp
deriving Repr, DecidableEq

/-- `main` (ia2.go), as the ordered list of its startup steps: the
`<-done` receive (`awaitDone`) precedes both `setEnvVar` calls. -/
def mainStartupOps : List MainOp :=
  [.seedEntropy, .assignLoAddr, .buildRouter, .anonInit, .newVProxy, .spawnProxyStart,
   .awaitDone,
   .setEnvOp "HTTP_PROXY" "socks5://127.0.0.1:1080",
   .setEnvOp "HTTPS_PROXY" "socks5://127.0.0.1:1080",
   .startFlusher, .certSetup, .serveTLS]

/-- Whether a startup step sets an environment variable. -/
def isSetEnvOp : MainOp → Bool
  | .setEnvOp _ _ => true
  | _ => false

/-! ### Claims about the receiver -/

/-- C6: `isValidApiVersion v` returns true iff `v` parses as an unsigned
decimal integer `n` with `1 ≤ n ≤ 4`; version "5" is rejected and version
"2" is accepted. -/
theorem isValidApiVersion_iff :
    (∀ v : String, isValidApiVersion v = true ↔
      ∃ n, strconvParseUint10 v = some n ∧ 1 ≤ n ∧ n ≤ 4) ∧
    isValidApiVersion "5" = false ∧ isValidApiVersion "2" = true := by
  refine ⟨fun v => ?_, by decide, by decide⟩
  unfold isValidApiVersion
  cases h : strconvParseUint10 v with
  | none => simp
  | some n =>
    simp only [Bool.and_eq_true, decide_eq_true_eq, Option.some.injEq]
    constructor
    · rintro ⟨h1, h2⟩
      exact ⟨n, rfl, h1, h2⟩
    · rintro ⟨m, rfl, h1, h2⟩
      exact ⟨h1, h2⟩

/-- C3: every request to the confirmation-token handler is answered as the
spec describes — each of the four validation failures yields an immediate
400 carrying its reason string with nothing sent to the inbox, and
otherwise exactly one record with the parsed IP and wallet UUID is sent
and the response is an empty 200. -/
theorem getConfTokenHandler_matches_spec :
    ∀ (parseUUID parseIP : String → Option (List Nat)) (version walletID : String)
      (header : Option String),
      SpecResponse.mk (getConfTokenHandler parseUUID parseIP version walletID header).status
        (getConfTokenHandler parseUUID parseIP version walletID header).body
        (getConfTokenHandler parseUUID parseIP version walletID header).sent =
      confTokenSpec parseUUID parseIP version walletID header := by
  intro pU pIP v w h
  unfold getConfTokenHandler confTokenSpec errAndReport
  cases hv : isValidApiVersion v
  · simp
  · simp only [Bool.not_true, Bool.false_eq_true, if_false, Bool.true_eq_false]
    cases hu : pU w with
    | none => simp
    | some u =>
      simp only [Option.isNone_some, Bool.false_eq_true, if_false]
      by_cases hh : h.getD "" = ""
      · simp [hh]
      · simp only [hh, if_false]
        cases hip : pIP (h.getD "") with
        | none => simp
        | some ip => simp

/-! ### Claims about certificate fingerprinting -/

/-- C7: provided every CERTIFICATE block parses, `setCertFingerprint`
yields the SHA-256 digest (32 bytes) of the raw bytes of the first PEM
CERTIFICATE block whose parsed certificate is not a CA, and exits fatally
when no such leaf entry exists. -/
theorem setCertFingerprint_first_leaf :
    ∀ (parseCert : List Nat → Option X509Cert) (blocks : List PemBlock),
      (∀ b ∈ blocks, b.btype = "CERTIFICATE" → (parseCert b.bytes).isSome) →
      ((∀ d, setCertFingerprint parseCert blocks = .ok d → d.length = 32) ∧
       (∀ d, specLeafDigest parseCert blocks = some d →
          setCertFingerprint parseCert blocks = .ok d) ∧
       (specLeafDigest parseCert blocks = none →
          ∀ d, setCertFingerprint parseCert blocks ≠ .ok d)) := by
  intro parseCert blocks
  induction blocks with
  | nil =>
    intro _
    refine ⟨?_, ?_, ?_⟩
    · intro d hd
      simp [setCertFingerprint] at hd
    · intro d hd
      simp [specLeafDigest] at hd
    · intro _ d hd
      simp [setCertFingerprint] at hd
  | cons b rest ih =>
    intro hall
    have hrest : ∀ x ∈ rest, x.btype = "CERTIFICATE" → (parseCert x.bytes).isSome :=
      fun x hx => hall x (List.mem_cons_of_mem b hx)
    by_cases hb : b.btype = "CERTIFICATE"
    · have hsome : (parseCert b.bytes).isSome := hall b (List.mem_cons_self b rest) hb
      cases hpc : parseCert b.bytes with
      | none => simp [hpc] at hsome
      | some cert =>
        cases hca : cert.isCA
        · refine ⟨?_, ?_, ?_⟩
          · intro d hd
            simp only [setCertFingerprint, hb, if_true, hpc, hca, Bool.not_false,
              if_true] at hd
            cases hd
            exact sha256_length cert.raw
          · intro d hd
            simp [specLeafDigest, List.find?_cons, hb, hpc, hca] at hd
            cases hd
            simp [setCertFingerprint, hb, hpc, hca]
          · intro hnone
            simp [specLeafDigest, List.find?_cons, hb, hpc, hca] at hnone
        · have hskip : setCertFingerprint parseCert (b :: rest) =
              setCertFingerprint parseCert rest := by
            simp [setCertFingerprint, hb, hpc, hca]
          have hfind : specLeafDigest parseCert (b :: rest) =
              specLeafDigest parseCert rest := by
            simp [specLeafDigest, List.find?_cons, hb, hpc, hca]
          rw [hskip, hfind]
          exact ih hrest
    · have hskip : setCertFingerprint parseCert (b :: rest) =
          setCertFingerprint parseCert rest := by
        simp [setCertFingerprint, hb]
      have hfind : specLeafDigest parseCert (b :: rest) =
          specLeafDigest parseCert rest := by
        simp [specLeafDigest, List.find?_cons, hb]
      rw [hskip, hfind]
      exact ih hrest

/-- Witness for C7 at a concrete one-leaf chain. -/
theorem setCertFingerprint_first_leaf_witness :
    setCertFingerprint (fun bs => some ⟨false, bs⟩) [⟨"CERTIFICATE", [1, 2]⟩] =
      .ok (sha256 [1, 2]) ∧ (sha256 [1, 2]).length = 32 := by
  have h := setCertFingerprint_first_leaf (fun bs => some ⟨false, bs⟩)
    [⟨"CERTIFICATE", [1, 2]⟩] (by intro b hb _; simp)
  have hok : setCertFingerprint (fun bs => some ⟨false, bs⟩) [⟨"CERTIFICATE", [1, 2]⟩] =
      .ok (sha256 [1, 2]) := h.2.1 (sha256 [1, 2]) rfl
  exact ⟨hok, h.1 (sha256 [1, 2]) hok⟩

/-- C1 (refuted by the code): the attest handler embeds the zero-valued
snapshot of `certSha256` taken when `initRouter` ran, never the value
`setCertFingerprint` assigns afterwards. -/
theorem attest_embeds_stale_zero_fingerprint :
    (∀ (parseCert : List Nat → Option X509Cert) (blocks : List PemBlock) (g : Ia2Globals),
        mainStartup parseCert blocks = .ok g → attestResponse g = zeroFingerprint) ∧
    (∃ g : Ia2Globals,
        mainStartup (fun bs => some ⟨false, bs⟩) [⟨"CERTIFICATE", [1, 2, 3]⟩] = .ok g ∧
        attestResponse g = zeroFingerprint ∧
        g.certSha256 = sha256 [1, 2, 3] ∧
        g.certSha256 ≠ zeroFingerprint) := by
  constructor
  · intro p blocks g h
    unfold mainStartup applyCertFingerprint at h
    cases hs : setCertFingerprint p blocks with
    | error e => rw [hs] at h; cases h
    | ok d =>
      rw [hs] at h
      cases h
      rfl
  · refine ⟨⟨sha256 [1, 2, 3], some zeroFingerprint⟩, rfl, rfl, rfl, ?_⟩
    decide

/-- Witness for C1's universal part at a concrete startup run. -/
theorem attest_embeds_stale_zero_fingerprint_witness :
    attestResponse ⟨sha256 [1, 2, 3], some zeroFingerprint⟩ = zeroFingerprint :=
  attest_embeds_stale_zero_fingerprint.1 (fun bs => some ⟨false, bs⟩)
    [⟨"CERTIFICATE", [1, 2, 3]⟩] ⟨sha256 [1, 2, 3], some zeroFingerprint⟩ rfl

/-! ### Claims about the anonymization key -/

/-- C2 is false on the code: with the debug constant false, the Crypto-PAn
key drawn at startup still appears verbatim (hex-encoded) in the startup
log, because `initAnonymization` logs it unconditionally. -/
theorem anonKey_logged_in_nondebug_build :
    ("Crypto-PAn key: " ++ hexString (List.range cryptopanSize)) ∈
      mainStartupLogs false true (fun n => some (List.range n)) (fun _ => true) := by
  decide

/-- C2 as amended: whenever the startup random draw succeeds, the drawn
AnonymizationKey is written to the log in both strategies, regardless of
the debug constant. -/
theorem anonKey_always_logged :
    ∀ (debugFlag useCP : Bool) (randRead : Nat → Option (List Nat))
      (cryptopanNew : List Nat → Bool) (key : List Nat),
      randRead (if useCP then cryptopanSize else hmacKeySize) = some key →
      ((if useCP then "Crypto-PAn key: " else "HMAC key: ") ++ hexString key) ∈
        mainStartupLogs debugFlag useCP randRead cryptopanNew := by
  intro debugFlag useCP randRead cryptopanNew key h
  unfold mainStartupLogs initAnonymization
  cases useCP
  · simp only [if_false, Bool.false_eq_true] at h ⊢
    simp [h]
  · simp only [if_true] at h ⊢
    simp [h]

/-- Witness for the amended C2 at a concrete key and non-debug build. -/
theorem anonKey_always_logged_witness :
    ("HMAC key: " ++ hexString [5]) ∈
      mainStartupLogs false false (fun _ => some [5]) (fun _ => true) :=
  anonKey_always_logged false false (fun _ => some [5]) (fun _ => true) [5] rfl

/-- C8: `initAnonymization` performs exactly one random draw, sized
`cryptopan.Size` for the Crypto-PAn strategy and `hmacKeySize` for the
HMAC strategy, and a failing draw — or a failing Crypto-PAn construction —
leaves it fatal with no key material installed. -/
theorem initAnonymization_single_draw :
    ∀ (useCP : Bool) (randRead : Nat → Option (List Nat)) (cryptopanNew : List Nat → Bool),
      (initAnonymization useCP randRead cryptopanNew).draws =
        [if useCP then cryptopanSize else hmacKeySize] ∧
      (randRead (if useCP then cryptopanSize else hmacKeySize) = none →
        (initAnonymization useCP randRead cryptopanNew).outcome = .fatal) ∧
      (∀ key, useCP = true → randRead cryptopanSize = some key → cryptopanNew key = false →
        (initAnonymization useCP randRead cryptopanNew).outcome = .fatal) := by
  intro useCP randRead cryptopanNew
  cases useCP
  · refine ⟨?_, ?_, ?_⟩
    · cases h : randRead hmacKeySize <;> simp [initAnonymization, h]
    · intro h
      simp only [Bool.false_eq_true, if_false] at h
      simp [initAnonymization, h]
    · intro key hcp; cases hcp
  · refine ⟨?_, ?_, ?_⟩
    · cases h : randRead cryptopanSize <;> simp [initAnonymization, h]
    · intro h
      simp only [if_true] at h
      simp [initAnonymization, h]
    · intro key _ hk hnew
      simp [initAnonymization, hk, hnew]

/-- Witness for C8: a failing draw at the Crypto-PAn size is fatal. -/
theorem initAnonymization_single_draw_witness :
    (initAnonymization true (fun _ => none) (fun _ => true)).draws = [cryptopanSize] ∧
    (initAnonymization true (fun _ => none) (fun _ => true)).outcome = .fatal := by
  have h := initAnonymization_single_draw true (fun _ => none) (fun _ => true)
  exact ⟨h.1, h.2.1 rfl⟩

/-! ### Claims about the vsock proxy -/

theorem acceptLoop_append (xs ys : List ConnAttempt) :
    acceptLoop (xs ++ ys) = acceptLoop xs ++ acceptLoop ys := by
  induction xs with
  | nil => simp [acceptLoop]
  | cons c rest ih =>
    cases hca : c.acceptOk
    · simp [acceptLoop, hca, ih]
    · cases hcd : c.dialOk
      · simp [acceptLoop, hca, hcd, ih]
      · simp [acceptLoop, hca, hcd, ih]

theorem bridgedOf_append (t1 t2 : List ProxyEv) :
    bridgedOf (t1 ++ t2) = bridgedOf t1 ++ bridgedOf t2 := by
  simp [bridgedOf, List.filterMap_append]

theorem bridgedOf_acceptLoop_cons (c : ConnAttempt) (rest : List ConnAttempt) :
    bridgedOf (acceptLoop (c :: rest)) =
      (if c.acceptOk && c.dialOk then [c.cid] else []) ++ bridgedOf (acceptLoop rest) := by
  cases hca : c.acceptOk
  · simp [acceptLoop, hca, bridgedOf, List.filterMap_cons]
  · cases hcd : c.dialOk
    · simp [acceptLoop, hca, hcd, bridgedOf, List.filterMap_cons]
    · simp [acceptLoop, hca, hcd, bridgedOf, List.filterMap_cons]

theorem mem_bridgedOf_acceptLoop {post : List ConnAttempt} {c2 : ConnAttempt}
    (hmem : c2 ∈ post) (ha : c2.acceptOk = true) (hd : c2.dialOk = true) :
    c2.cid ∈ bridgedOf (acceptLoop post) := by
  induction post with
  | nil => cases hmem
  | cons c rest ih =>
    rw [bridgedOf_acceptLoop_cons]
    rcases List.mem_cons.mp hmem with rfl | hmem2
    · simp [ha, hd]
    · exact List.mem_append_right _ (ih hmem2)

theorem doneSignal_not_in_acceptLoop : ∀ conns : List ConnAttempt,
    ProxyEv.doneSignal ∉ acceptLoop conns := by
  intro conns
  induction conns with
  | nil => simp [acceptLoop]
  | cons c rest ih =>
    cases hca : c.acceptOk
    · simp [acceptLoop, hca, ih]
    · cases hcd : c.dialOk
      · simp [acceptLoop, hca, hcd, ih]
      · simp [acceptLoop, hca, hcd, ih]

/-- C5: a vsock dial failure drops only that inbound connection — the
failure is logged, the bridged pairs are exactly those of the surrounding
attempts, and any later attempt whose accept and dial succeed is still
bridged. -/
theorem dial_failure_isolated :
    ∀ (pre post : List ConnAttempt) (c : ConnAttempt),
      c.acceptOk = true → c.dialOk = false →
      (bridgedOf (acceptLoop (pre ++ c :: post)) =
        bridgedOf (acceptLoop pre) ++ bridgedOf (acceptLoop post) ∧
       ProxyEv.logMsg "Failed to establish connection to SOCKS proxy." ∈
         acceptLoop (pre ++ c :: post) ∧
       (∀ c2 ∈ post, c2.acceptOk = true → c2.dialOk = true →
         c2.cid ∈ bridgedOf (acceptLoop (pre ++ c :: post)))) := by
  intro pre post c ha hd
  have hsplit : acceptLoop (pre ++ c :: post) =
      acceptLoop pre ++ acceptLoop (c :: post) := acceptLoop_append pre (c :: post)
  have hbr : bridgedOf (acceptLoop (pre ++ c :: post)) =
      bridgedOf (acceptLoop pre) ++ bridgedOf (acceptLoop post) := by
    rw [hsplit, bridgedOf_append, bridgedOf_acceptLoop_cons]
    simp [ha, hd]
  refine ⟨hbr, ?_, ?_⟩
  · rw [hsplit]
    refine List.mem_append_right _ ?_
    simp [acceptLoop, ha, hd]
  · intro c2 hm ha2 hd2
    rw [hbr]
    exact List.mem_append_right _ (mem_bridgedOf_acceptLoop hm ha2 hd2)

/-- Witness for C5: after a dial failure, a later good connection is
still bridged and the dial failure changed no other pair. -/
theorem dial_failure_isolated_witness :
    bridgedOf (acceptLoop [⟨9, true, false⟩, ⟨5, true, true⟩]) =
      bridgedOf (acceptLoop ([] : List ConnAttempt)) ++
        bridgedOf (acceptLoop [⟨5, true, true⟩]) ∧
    (5 : Nat) ∈ bridgedOf (acceptLoop [⟨9, true, false⟩, ⟨5, true, true⟩]) := by
  have h := dial_failure_isolated [] [⟨5, true, true⟩] ⟨9, true, false⟩ rfl rfl
  exact ⟨h.1, h.2.2 ⟨5, true, true⟩ (by simp) rfl rfl⟩

/-- C9: `VProxy.Start` signals readiness exactly once, after a successful
bind and before any accept-loop event (and not at all when the bind
fails), and `main` performs both `setEnvVar` calls for HTTP_PROXY and
HTTPS_PROXY only after the `<-done` receive. -/
theorem vproxy_readiness_then_env :
    (∀ conns : List ConnAttempt,
        vproxyStart true conns =
          ProxyEv.bound :: ProxyEv.doneSignal :: acceptLoop conns ∧
        ProxyEv.doneSignal ∉ acceptLoop conns ∧
        vproxyStart false conns = []) ∧
    ((∀ i : Fin mainStartupOps.length,
        isSetEnvOp (mainStartupOps.get i) = true →
        ∃ j : Fin mainStartupOps.length, j.val < i.val ∧
          mainStartupOps.get j = MainOp.awaitDone) ∧
     MainOp.setEnvOp "HTTP_PROXY" "socks5://127.0.0.1:1080" ∈ mainStartupOps ∧
     MainOp.setEnvOp "HTTPS_PROXY" "socks5://127.0.0.1:1080" ∈ mainStartupOps) := by
  refine ⟨fun conns => ⟨rfl, doneSignal_not_in_acceptLoop conns, rfl⟩, ?_, by decide, by decide⟩
  decide

/-- Witness for C9 at the empty connection list and the HTTP_PROXY step. -/
theorem vproxy_readiness_then_env_witness :
    vproxyStart true [] = [ProxyEv.bound, ProxyEv.doneSignal] ∧
    (∃ j : Fin mainStartupOps.length, j.val < 7 ∧
      mainStartupOps.get j = MainOp.awaitDone) := by
  refine ⟨?_, ?_⟩
  · have h := (vproxy_readiness_then_env.1 []).1
    simpa [acceptLoop] using h
  · exact vproxy_readiness_then_env.2.1 ⟨7, by decide⟩ (by decide)

/-- C4 (with the buffer size as in the code): each forwarding task passes
to `dst.Write` exactly the chunks it read, every read chunk fits the
0xffff-byte buffer, and the task terminates closing its source on a read
error, write error, or short write — and keeps running (source open) while
no step fails. -/
theorem pipe_forwarding_behavior :
    ∀ (src dst : Nat) (steps : List PipeStep),
      writesOf (pipe src dst steps) = readsOf (pipe src dst steps) ∧
      (∀ b ∈ readsOf (pipe src dst steps), b.length ≤ bufSize) ∧
      (steps.any stepFails = true → NetEffect.close src ∈ pipe src dst steps) ∧
      (steps.all (fun s => !stepFails s) = true →
        NetEffect.close src ∉ pipe src dst steps) := by
  intro src dst steps
  induction steps with
  | nil =>
    refine ⟨rfl, ?_, ?_, ?_⟩
    · simp [pipe, readsOf]
    · intro h; simp at h
    · intro _; simp [pipe]
  | cons s rest ih =>
    obtain ⟨ih1, ih2, ih3, ih4⟩ := ih
    cases ho : s.offered with
    | none =>
      refine ⟨?_, ?_, ?_, ?_⟩
      · simp [pipe, ho, readsOf, writesOf]
      · intro b hb; simp [pipe, ho, readsOf] at hb
      · intro _; simp [pipe, ho]
      · intro hall; simp [stepFails, ho] at hall
    | some bs =>
      by_cases hw : s.writeErr = true
      · refine ⟨?_, ?_, ?_, ?_⟩
        · simp [pipe, ho, hw, readsOf, writesOf]
        · intro b hb
          simp [pipe, ho, hw, readsOf] at hb
          subst hb
          simp [List.length_take]
        · intro _; simp [pipe, ho, hw]
        · intro hall; simp [stepFails, ho, hw] at hall
      · by_cases hn : s.writeN = (bs.take bufSize).length
        · rw [List.length_take] at hn
          have hsf : stepFails s = false := by
            simp [stepFails, ho, hw, List.length_take, hn]
          refine ⟨?_, ?_, ?_, ?_⟩
          · have hwr := ih1
            simp only [writesOf, readsOf] at hwr
            simp [pipe, ho, hw, readsOf, writesOf, List.filterMap_cons,
              List.length_take, hn, hwr]
          · intro b hb
            simp [pipe, ho, hw, readsOf, List.filterMap_cons, List.length_take, hn] at hb
            rcases hb with hb | hb
            · subst hb; simp [List.length_take]
            · exact ih2 b (by simpa [readsOf] using hb)
          · intro hany
            simp only [List.any_cons, hsf, Bool.false_or] at hany
            have hmem := ih3 hany
            simp [pipe, ho, hw, List.length_take, hn]
            exact hmem
          · intro hall
            simp only [List.all_cons, hsf, Bool.not_false, Bool.true_and] at hall
            have hnot := ih4 hall
            simp [pipe, ho, hw, List.length_take, hn]
            exact hnot
        · rw [List.length_take] at hn
          refine ⟨?_, ?_, ?_, ?_⟩
          · simp [pipe, ho, hw, readsOf, writesOf, List.length_take, hn]
          · intro b hb
            simp [pipe, ho, hw, readsOf, List.length_take, hn] at hb
            subst hb
            simp [List.length_take]
          · intro _; simp [pipe, ho, hw, List.length_take, hn]
          · intro hall; simp [stepFails, ho, hw, List.length_take, hn] at hall

/-- Witness for C4: a full write forwards the chunk; a read error closes
the source. -/
theorem pipe_forwarding_behavior_witness :
    writesOf (pipe 0 1 [⟨some [7, 7], 2, false⟩]) =
      readsOf (pipe 0 1 [⟨some [7, 7], 2, false⟩]) ∧
    NetEffect.close 0 ∈ pipe 0 1 [⟨none, 0, false⟩] :=
  ⟨(pipe_forwarding_behavior 0 1 [⟨some [7, 7], 2, false⟩]).1,
   (pipe_forwarding_behavior 0 1 [⟨none, 0, false⟩]).2.2.1 (by decide)⟩

/-- The "64 KiB buffer" of C4 is false on the code: with 65536 bytes
(= 64 KiB) available on the source, a single read obtains only 65535
bytes, because the relay buffer is `make([]byte, 0xffff)`. -/
theorem pipe_buffer_not_64KiB :
    readsOf (pipe 0 1 [⟨some (List.replicate 65536 7), 65535, false⟩]) =
      [List.replicate 65535 7] ∧ bufSize ≠ 65536 := by
  constructor
  · have ht : (List.replicate 65536 (7 : Nat)).take bufSize =
        List.replicate 65535 7 := by
      rw [List.take_replicate]
      norm_num [bufSize]
    have htrace : pipe 0 1 [⟨some (List.replicate 65536 7), 65535, false⟩] =
        [NetEffect.readOk 0 (List.replicate 65535 7),
         NetEffect.write 1 (List.replicate 65535 7)] := by
      simp only [pipe]
      rw [ht]
      rw [List.length_replicate]
      norm_num
    rw [htrace]
    rfl
  · decide

/-- C10: a forwarding task closes at most its own source connection and
never its destination: the closes of any `pipe` trace are `[]` or
`[src]`, and for distinct endpoints no close of `dst` ever appears. -/
theorem pipe_closes_only_source :
    ∀ (src dst : Nat) (steps : List PipeStep),
      (closesOf (pipe src dst steps) = [] ∨ closesOf (pipe src dst steps) = [src]) ∧
      (src ≠ dst → NetEffect.close dst ∉ pipe src dst steps) := by
  intro src dst steps
  induction steps with
  | nil =>
    refine ⟨Or.inl rfl, fun _ => ?_⟩
    simp [pipe]
  | cons s rest ih =>
    obtain ⟨ih1, ih2⟩ := ih
    cases ho : s.offered with
    | none =>
      refine ⟨Or.inr ?_, fun hne => ?_⟩
      · simp [pipe, ho, closesOf]
      · simp [pipe, ho]
        exact fun h => hne h.symm
    | some bs =>
      by_cases hw : s.writeErr = true
      · refine ⟨Or.inr ?_, fun hne => ?_⟩
        · simp [pipe, ho, hw, closesOf, List.filterMap_cons]
        · simp [pipe, ho, hw]
          exact fun h => hne h.symm
      · by_cases hn : s.writeN = (bs.take bufSize).length
        · rw [List.length_take] at hn
          refine ⟨?_, fun hne => ?_⟩
          · simpa [pipe, ho, hw, closesOf, List.filterMap_cons, List.length_take, hn]
              using ih1
          · have hnot := ih2 hne
            simp [pipe, ho, hw, List.length_take, hn]
            exact hnot
        · rw [List.length_take] at hn
          refine ⟨Or.inr ?_, fun hne => ?_⟩
          · simp [pipe, ho, hw, closesOf, List.filterMap_cons, List.length_take, hn]
          · simp [pipe, ho, hw, List.length_take, hn]
            exact fun h => hne h.symm

/-- Witness for C10: the companion's connection is never closed by this
task even as it terminates. -/
theorem pipe_closes_only_source_witness :
    NetEffect.close 1 ∉ pipe 0 1 [⟨none, 0, false⟩] :=
  (pipe_closes_only_source 0 1 [⟨none, 0, false⟩]).2 (by decide)
